import Mathlib

/-!
Verification of the authe.me OpenClaw trust-scoring plugin.

The definitions below are a shallow embedding of the repository source:
  - the scoring engine (scope adherence, cost efficiency, latency
    efficiency, overall weighted score) from the agent_end handler of
    src/extensions/autheme/src/plugin.ts and from the computeScore
    function of src/unnamed/part_001;
  - the run registry (getOrCreateRun, evictStaleRuns) of
    src/unnamed/part_001 and the activeRuns map of plugin.ts;
  - the message-scan reconciliation, sanitize, and the reporting
    dispatch boundary of plugin.ts.

JavaScript numbers are modelled as exact rationals; Math.round(x) is
the half-up rounding round x = floor (x + 1/2), which matches Mathlib
round.  JavaScript Map objects are modelled as association lists with
Map insertion semantics (replace in place when the key is present,
append otherwise).
-/

-- ───────────────────────── Basic data model ─────────────────────────

/-- Flag severity, from the TrustFlag interface of plugin.ts. -/
inductive Severity where
  | info
  | warning
  | critical
deriving DecidableEq

/-- A scoring flag, from the TrustFlag interface of plugin.ts. -/
structure TrustFlag where
  severity : Severity
  dimension : String
  message : String
  action : Option String := none
deriving DecidableEq

-- ───────────── JavaScript number rendering (template literals) ─────────────

/-- Decimal digits of a fraction 0 ≤ q < 1, with fuel, mirroring how a
JavaScript template literal renders the fractional part of a number. -/
def fracDigits : Nat → ℚ → String
  | 0, _ => ""
  | fuel + 1, q =>
    if q = 0 then ""
    else toString ⌊q * 10⌋ ++ fracDigits fuel (q * 10 - ((⌊q * 10⌋ : ℤ) : ℚ))

/-- Rendering of a nonnegative JavaScript number in a template literal. -/
def jsNumToStringNonneg (q : ℚ) : String :=
  if q - ((⌊q⌋ : ℤ) : ℚ) = 0 then toString ⌊q⌋
  else toString ⌊q⌋ ++ "." ++ fracDigits 20 (q - ((⌊q⌋ : ℤ) : ℚ))

/-- Rendering of a JavaScript number in a template literal. -/
def jsNumToString (q : ℚ) : String :=
  if q < 0 then "-" ++ jsNumToStringNonneg (-q) else jsNumToStringNonneg q

/-- Left-pad a string with zeros to the given length. -/
def padLeftZeros (s : String) (n : Nat) : String :=
  String.mk (List.replicate (n - s.length) '0') ++ s

/-- JavaScript Number.prototype.toFixed(4): render with exactly four
decimal digits, rounding to nearest (used on nonnegative costs). -/
def toFixed4 (q : ℚ) : String :=
  toString (round (q * 10000) / 10000) ++ "." ++
    padLeftZeros (toString (round (q * 10000) % 10000)) 4

/-- fracDigits of an exact zero fraction is empty. -/
theorem fracDigits_zero (fuel : Nat) : fracDigits fuel (0 : ℚ) = "" := by
  cases fuel <;> simp [fracDigits]

/-- One unfolding step of fracDigits on a nonzero fraction. -/
theorem fracDigits_succ (fuel : Nat) (q : ℚ) (hq : q ≠ 0) :
    fracDigits (fuel + 1) q =
      toString ⌊q * 10⌋ ++ fracDigits fuel (q * 10 - ((⌊q * 10⌋ : ℤ) : ℚ)) := by
  simp [fracDigits, hq]

-- ───────────────────────── Rounding lemmas ─────────────────────────

/-- Mathlib round (half-up, matching Math.round) is monotone. -/
theorem round_le_round_of_le {x y : ℚ} (h : x ≤ y) : round x ≤ round y := by
  rw [round_eq, round_eq]
  exact Int.floor_mono (by linarith)

/-- Math.max(0, Math.round x) coincides with round (max 0 x). -/
theorem max_zero_round (x : ℚ) : max 0 (round x) = round (max 0 x) := by
  rcases le_total x 0 with h | h
  · have h2 : round x ≤ 0 := by
      simpa [round_zero] using round_le_round_of_le h
    rw [max_eq_left h2, max_eq_left h, round_zero]
  · have h2 : 0 ≤ round x := by
      simpa [round_zero] using round_le_round_of_le h
    rw [max_eq_right h2, max_eq_right h]

-- ───────────── Scope adherence (plugin.ts agent_end, lines 213-226) ─────────────

/-- violationRate = totalViolations / Math.max(totalTools, 1). -/
def violationRateOf (toolCalls scopeViolations : List String) : ℚ :=
  (scopeViolations.length : ℚ) / ((max toolCalls.length 1 : ℕ) : ℚ)

/-- Order-preserving deduplication keeping first occurrences,
mirroring the iteration order of a JavaScript Set built from a list. -/
def dedupFirstAux (seen : List String) : List String → List String
  | [] => []
  | a :: l =>
    if a ∈ seen then dedupFirstAux seen l
    else a :: dedupFirstAux (a :: seen) l

/-- [...new Set(list)] in JavaScript: distinct elements, first-occurrence order. -/
def dedupFirst (l : List String) : List String := dedupFirstAux [] l

/-- The per-tool scope-violation flag emitted by the agent_end handler. -/
def scopeFlag (violationRate : ℚ) (tool : String) : TrustFlag :=
  { severity := if violationRate > 1/2 then .critical else .warning
    dimension := "scope_adherence"
    message := "Tool \"" ++ tool ++ "\" not in allowed list"
    action := some ("Add \"" ++ tool ++ "\" to allowedTools or investigate why it was called") }

/-- The scopeAdherence dimension score of the agent_end handler. -/
def scopeAdherenceScore (allowedTools toolCalls scopeViolations : List String) : ℤ :=
  if 0 < allowedTools.length ∧ 0 < scopeViolations.length then
    max 0 (round ((1 - violationRateOf toolCalls scopeViolations) * 100))
  else 100

/-- The scope_adherence flags of the agent_end handler: one per distinct
violating tool name, severity from the aggregate violation rate. -/
def scopeFlagsOf (allowedTools toolCalls scopeViolations : List String) : List TrustFlag :=
  if 0 < allowedTools.length ∧ 0 < scopeViolations.length then
    (dedupFirst scopeViolations).map (scopeFlag (violationRateOf toolCalls scopeViolations))
  else []

-- ───────────── Cost efficiency (part_001 computeScore, lines 396-406) ─────────────

/-- The cost_efficiency flag of computeScore in src/unnamed/part_001. -/
def costFlag (totalCost costAlertThreshold : ℚ) : TrustFlag :=
  { severity := if totalCost / costAlertThreshold > 3 then .critical else .warning
    dimension := "cost_efficiency"
    message := "Run cost $" ++ toFixed4 totalCost ++ " (threshold: $" ++
      jsNumToString costAlertThreshold ++ ")"
    action := some "Review token usage — consider shorter prompts or cheaper model for subtasks" }

/-- The costEfficiency dimension score of computeScore in src/unnamed/part_001. -/
def costEfficiencyScore (totalCost costAlertThreshold : ℚ) : ℤ :=
  if totalCost > costAlertThreshold then
    max 0 (round ((100 : ℚ) / (totalCost / costAlertThreshold)))
  else 100

/-- The cost_efficiency flag list of computeScore in src/unnamed/part_001. -/
def costFlagsOf (totalCost costAlertThreshold : ℚ) : List TrustFlag :=
  if totalCost > costAlertThreshold then [costFlag totalCost costAlertThreshold]
  else []

-- ───────────── Latency efficiency (plugin.ts agent_end, lines 231-253) ─────────────

/-- slowCalls = totalLatencies.filter(l greater than latencyThreshold). -/
def slowCallsOf (latencies : List ℚ) (latencyThreshold : ℚ) : List ℚ :=
  latencies.filter (fun l => latencyThreshold < l)

/-- slowRate = slowCalls.length / Math.max(totalLatencies.length, 1). -/
def slowRateOf (latencies : List ℚ) (latencyThreshold : ℚ) : ℚ :=
  ((slowCallsOf latencies latencyThreshold).length : ℚ) /
    ((max latencies.length 1 : ℕ) : ℚ)

/-- The latencyEfficiency dimension score of the agent_end handler. -/
def latencyEfficiencyScore (latencies : List ℚ) (latencyThreshold : ℚ) : ℤ :=
  if 0 < (slowCallsOf latencies latencyThreshold).length then
    max 0 (round ((1 - slowRateOf latencies latencyThreshold) * 100))
  else 100

/-- The slow-call flag of the agent_end handler (message "k/n tool calls
exceeded Tms"). -/
def slowFlag (latencies : List ℚ) (latencyThreshold : ℚ) : TrustFlag :=
  { severity := if slowRateOf latencies latencyThreshold > 1/2 then .critical else .warning
    dimension := "latency_efficiency"
    message := toString (slowCallsOf latencies latencyThreshold).length ++ "/" ++
      toString latencies.length ++ " tool calls exceeded " ++
      jsNumToString latencyThreshold ++ "ms"
    action := some "Check model provider latency or reduce prompt size" }

/-- The slow-call flag list of the agent_end handler. -/
def slowFlagsOf (latencies : List ℚ) (latencyThreshold : ℚ) : List TrustFlag :=
  if 0 < (slowCallsOf latencies latencyThreshold).length then
    [slowFlag latencies latencyThreshold]
  else []

/-- The overall-run-duration flag of the agent_end handler. -/
def durationFlag (durationMs : ℚ) : TrustFlag :=
  { severity := .warning
    dimension := "latency_efficiency"
    message := "Total run took " ++ jsNumToString durationMs ++ "ms"
    action := some "Consider breaking into smaller agent tasks" }

/-- The overall-run-duration flag list of the agent_end handler, emitted
when event.durationMs exceeds twice the latency threshold. -/
def durationFlagsOf (durationMs latencyThreshold : ℚ) : List TrustFlag :=
  if durationMs > latencyThreshold * 2 then [durationFlag durationMs]
  else []

/-- All latency_efficiency flags emitted by the agent_end handler, in
emission order: the slow-call flag then the run-duration flag. -/
def latencyFlagsOf (latencies : List ℚ) (latencyThreshold durationMs : ℚ) : List TrustFlag :=
  slowFlagsOf latencies latencyThreshold ++ durationFlagsOf durationMs latencyThreshold

-- ───────────── Overall weighted score (plugin.ts agent_end, lines 255-261) ─────────────

/-- The weighted overall trust score of the agent_end handler:
Math.round(reliability*0.30 + scope*0.30 + cost*0.20 + latency*0.20). -/
def overallScore (reliability scopeAdherence costEfficiency latencyEfficiency : ℤ) : ℤ :=
  round ((reliability : ℚ) * (30/100) + (scopeAdherence : ℚ) * (30/100) +
    (costEfficiency : ℚ) * (20/100) + (latencyEfficiency : ℚ) * (20/100))

-- ───────────────────────── dedupFirst lemmas ─────────────────────────

/-- Membership in dedupFirstAux: in the tail and not yet seen. -/
theorem dedupFirstAux_mem (t : String) :
    ∀ (l seen : List String), t ∈ dedupFirstAux seen l ↔ t ∈ l ∧ t ∉ seen := by
  intro l
  induction l with
  | nil => intro seen; simp [dedupFirstAux]
  | cons a l ih =>
    intro seen
    by_cases ha : a ∈ seen
    · simp only [dedupFirstAux, if_pos ha, ih, List.mem_cons]
      constructor
      · rintro ⟨h1, h2⟩; exact ⟨Or.inr h1, h2⟩
      · rintro ⟨h1 | h1, h2⟩
        · exact absurd (h1 ▸ ha) h2
        · exact ⟨h1, h2⟩
    · simp only [dedupFirstAux, if_neg ha, List.mem_cons, ih]
      constructor
      · rintro (h | ⟨h1, h2⟩)
        · exact ⟨Or.inl h, h ▸ ha⟩
        · exact ⟨Or.inr h1, (not_or.mp h2).2⟩
      · rintro ⟨h1 | h1, h2⟩
        · exact Or.inl h1
        · by_cases he : t = a
          · exact Or.inl he
          · exact Or.inr ⟨h1, not_or.mpr ⟨he, h2⟩⟩

/-- dedupFirstAux produces a list without duplicates. -/
theorem dedupFirstAux_nodup :
    ∀ (l seen : List String), (dedupFirstAux seen l).Nodup := by
  intro l
  induction l with
  | nil => intro seen; simp [dedupFirstAux]
  | cons a l ih =>
    intro seen
    by_cases ha : a ∈ seen
    · simpa [dedupFirstAux, if_pos ha] using ih seen
    · rw [show dedupFirstAux seen (a :: l) = a :: dedupFirstAux (a :: seen) l from by
        simp [dedupFirstAux, ha]]
      refine List.nodup_cons.mpr ⟨?_, ih (a :: seen)⟩
      intro hmem
      exact ((dedupFirstAux_mem a l (a :: seen)).mp hmem).2 (List.mem_cons_self a seen)

/-- Membership in dedupFirst is membership in the original list. -/
theorem mem_dedupFirst (t : String) (l : List String) :
    t ∈ dedupFirst l ↔ t ∈ l := by
  simp [dedupFirst, dedupFirstAux_mem]

/-- dedupFirst produces a list without duplicates. -/
theorem dedupFirst_nodup (l : List String) : (dedupFirst l).Nodup :=
  dedupFirstAux_nodup l []

-- ───────────────────────── Claims C1 - C4 ─────────────────────────

/-- C1: for every run record and configuration with a positive cost
threshold, the cost-efficiency dimension of computeScore
(src/unnamed/part_001) is 100 with no flag when totalCost is at most the
threshold; otherwise, with overage = totalCost / threshold, the score is
round (max 0 (100 / overage)), exactly one cost flag is emitted, its
severity is critical exactly when overage > 3 (and warning otherwise),
and its message reports the cost via toFixed(4). -/
theorem c1_cost_efficiency (totalCost threshold : ℚ) (_hthr : 0 < threshold) :
    (totalCost ≤ threshold →
      costEfficiencyScore totalCost threshold = 100 ∧
      costFlagsOf totalCost threshold = []) ∧
    (threshold < totalCost →
      costEfficiencyScore totalCost threshold =
        round (max 0 ((100 : ℚ) / (totalCost / threshold))) ∧
      costFlagsOf totalCost threshold = [costFlag totalCost threshold] ∧
      ((costFlag totalCost threshold).severity = Severity.critical ↔
        3 < totalCost / threshold) ∧
      ((costFlag totalCost threshold).severity = Severity.warning ↔
        ¬ 3 < totalCost / threshold) ∧
      (costFlag totalCost threshold).message =
        "Run cost $" ++ toFixed4 totalCost ++ " (threshold: $" ++
          jsNumToString threshold ++ ")") := by
  constructor
  · intro h
    rw [costEfficiencyScore, costFlagsOf, if_neg (not_lt.mpr h), if_neg (not_lt.mpr h)]
    exact ⟨rfl, rfl⟩
  · intro h
    refine ⟨?_, ?_, ?_, ?_, rfl⟩
    · rw [costEfficiencyScore, if_pos h, max_zero_round]
    · rw [costFlagsOf, if_pos h]
    · by_cases hc : 3 < totalCost / threshold
      · simp [costFlag, hc]
      · simp [costFlag, hc]
    · by_cases hc : 3 < totalCost / threshold
      · simp [costFlag, hc]
      · simp [costFlag, hc]

/-- Witness for C1 at the spec example cost = 1.5, threshold = 0.5:
overage is exactly 3, the score is 33, the single flag has severity
warning (the > 3 boundary is exclusive) and reports $1.5000. -/
theorem c1_cost_efficiency_witness :
    costEfficiencyScore (3/2) (1/2) = 33 ∧
    costFlagsOf (3/2) (1/2) = [costFlag (3/2) (1/2)] ∧
    (costFlag (3/2) (1/2)).severity = Severity.warning ∧
    (costFlag (3/2) (1/2)).message = "Run cost $1.5000 (threshold: $0.5)" := by
  obtain ⟨hs, hf, hcrit, hwarn, hmsg⟩ :=
    (c1_cost_efficiency (3/2) (1/2) (by norm_num)).2 (by norm_num)
  refine ⟨?_, hf, hwarn.mpr (by norm_num), ?_⟩
  · rw [hs, max_eq_right (by positivity : (0:ℚ) ≤ 100 / ((3/2 : ℚ) / (1/2)))]
    norm_num [round_eq]
  · rw [hmsg]
    have h1 : toFixed4 (3/2 : ℚ) = "1.5000" := by
      have hr : round ((3/2 : ℚ) * 10000) = 15000 := by norm_num [round_eq]
      rw [toFixed4, hr]
      decide
    have h2 : jsNumToString (1/2 : ℚ) = "0.5" := by
      have hf0 : ⌊(1:ℚ)/2⌋ = 0 := by norm_num [Int.floor_eq_iff]
      have hx : (1:ℚ)/2 - ((0 : ℤ) : ℚ) = 1/2 := by norm_num
      rw [jsNumToString, if_neg (by norm_num : ¬ ((1:ℚ)/2 < 0)), jsNumToStringNonneg, hf0, hx,
        if_neg (by norm_num : ¬ ((1:ℚ)/2 = 0))]
      have h3 : ⌊(1:ℚ)/2 * 10⌋ = 5 := by norm_num
      have h4 : (1:ℚ)/2 * 10 - ((5 : ℤ) : ℚ) = 0 := by norm_num
      rw [show (20 : Nat) = 19 + 1 from rfl, fracDigits_succ 19 _ (by norm_num), h3, h4,
        fracDigits_zero]
      decide
    rw [h1, h2]
    rfl

/-- C2: scope adherence of the agent_end handler (plugin.ts, lines
213-226).  With a non-empty allow-list and an empty violation list the
score is 100 with no flag; with violations the score is
round (max 0 ((1 - violationRate) * 100)) and the flags are exactly one
per distinct violating tool name (the deduplicated list has no
duplicates and the same members as the violation list), each flag
critical exactly when the aggregate violationRate exceeds 1/2.  With an
empty allow-list the score is 100 and no flag is emitted. -/
theorem c2_scope_adherence (allowedTools toolCalls scopeViolations : List String) :
    (allowedTools ≠ [] → scopeViolations = [] →
      scopeAdherenceScore allowedTools toolCalls scopeViolations = 100 ∧
      scopeFlagsOf allowedTools toolCalls scopeViolations = []) ∧
    (allowedTools ≠ [] → scopeViolations ≠ [] →
      scopeAdherenceScore allowedTools toolCalls scopeViolations =
        round (max 0 ((1 - violationRateOf toolCalls scopeViolations) * 100)) ∧
      scopeFlagsOf allowedTools toolCalls scopeViolations =
        (dedupFirst scopeViolations).map
          (scopeFlag (violationRateOf toolCalls scopeViolations)) ∧
      (dedupFirst scopeViolations).Nodup ∧
      (∀ t, t ∈ dedupFirst scopeViolations ↔ t ∈ scopeViolations) ∧
      (∀ f ∈ scopeFlagsOf allowedTools toolCalls scopeViolations,
        (f.severity = Severity.critical ↔
          1/2 < violationRateOf toolCalls scopeViolations) ∧
        (f.severity = Severity.warning ↔
          ¬ 1/2 < violationRateOf toolCalls scopeViolations))) ∧
    (allowedTools = [] →
      scopeAdherenceScore allowedTools toolCalls scopeViolations = 100 ∧
      scopeFlagsOf allowedTools toolCalls scopeViolations = []) := by
  refine ⟨?_, ?_, ?_⟩
  · intro _ hv
    have hc : ¬ (0 < allowedTools.length ∧ 0 < scopeViolations.length) := by
      simp [hv]
    rw [scopeAdherenceScore, scopeFlagsOf, if_neg hc, if_neg hc]
    exact ⟨rfl, rfl⟩
  · intro ha hv
    have hc : 0 < allowedTools.length ∧ 0 < scopeViolations.length :=
      ⟨List.length_pos.mpr ha, List.length_pos.mpr hv⟩
    refine ⟨?_, ?_, dedupFirst_nodup scopeViolations,
      fun t => mem_dedupFirst t scopeViolations, ?_⟩
    · rw [scopeAdherenceScore, if_pos hc, max_zero_round]
    · rw [scopeFlagsOf, if_pos hc]
    · intro f hf
      rw [scopeFlagsOf, if_pos hc] at hf
      obtain ⟨t, _, rfl⟩ := List.mem_map.mp hf
      by_cases hr : 1/2 < violationRateOf toolCalls scopeViolations
      · constructor <;> simp [scopeFlag, hr]
      · constructor <;> simp [scopeFlag, hr]
  · intro ha
    have hc : ¬ (0 < allowedTools.length ∧ 0 < scopeViolations.length) := by
      simp [ha]
    rw [scopeAdherenceScore, scopeFlagsOf, if_neg hc, if_neg hc]
    exact ⟨rfl, rfl⟩

/-- Witness for C2 at the spec example toolCalls = [a, b, c],
violations = [a], allow-list [b, c]: the score is 67 and exactly one
warning flag is emitted, whose message mentions tool a. -/
theorem c2_scope_adherence_witness :
    scopeAdherenceScore ["b", "c"] ["a", "b", "c"] ["a"] = 67 ∧
    scopeFlagsOf ["b", "c"] ["a", "b", "c"] ["a"] =
      [scopeFlag (violationRateOf ["a", "b", "c"] ["a"]) "a"] ∧
    (scopeFlag (violationRateOf ["a", "b", "c"] ["a"]) "a").severity = Severity.warning ∧
    (scopeFlag (violationRateOf ["a", "b", "c"] ["a"]) "a").message =
      "Tool \"a\" not in allowed list" := by
  have hrate : violationRateOf ["a", "b", "c"] ["a"] = 1/3 := by
    norm_num [violationRateOf]
  obtain ⟨hs, hf, _, _, hsev⟩ :=
    (c2_scope_adherence ["b", "c"] ["a", "b", "c"] ["a"]).2.1 (by decide) (by decide)
  have hded : dedupFirst ["a"] = ["a"] := by decide
  have hflag : scopeFlagsOf ["b", "c"] ["a", "b", "c"] ["a"] =
      [scopeFlag (violationRateOf ["a", "b", "c"] ["a"]) "a"] := by
    rw [hf, hded, List.map_cons, List.map_nil]
  refine ⟨?_, hflag, ?_, rfl⟩
  · rw [hs, hrate, max_eq_right (by norm_num : (0:ℚ) ≤ (1 - 1/3) * 100)]
    norm_num [round_eq]
  · exact ((hsev _ (hflag ▸ List.mem_cons_self _ _)).2).mpr (by rw [hrate]; norm_num)

/-- C3: latency efficiency of the agent_end handler (plugin.ts, lines
231-253).  With no slow sample the score is 100 and no slow-call flag;
otherwise the score is round (max 0 ((1 - slowRate) * 100)) with exactly
one slow-call flag whose message reports slowCount/sampleCount and whose
severity is critical exactly when slowRate > 1/2.  Independently, a
separate warning flag about the total run duration is emitted exactly
when durationMs exceeds twice the latency threshold, and the dimension's
flag list is the concatenation of the two, so both can coexist. -/
theorem c3_latency_efficiency (latencies : List ℚ) (latencyThreshold durationMs : ℚ) :
    ((slowCallsOf latencies latencyThreshold).length = 0 →
      latencyEfficiencyScore latencies latencyThreshold = 100 ∧
      slowFlagsOf latencies latencyThreshold = []) ∧
    (0 < (slowCallsOf latencies latencyThreshold).length →
      latencyEfficiencyScore latencies latencyThreshold =
        round (max 0 ((1 - slowRateOf latencies latencyThreshold) * 100)) ∧
      slowFlagsOf latencies latencyThreshold = [slowFlag latencies latencyThreshold] ∧
      ((slowFlag latencies latencyThreshold).severity = Severity.critical ↔
        1/2 < slowRateOf latencies latencyThreshold) ∧
      ((slowFlag latencies latencyThreshold).severity = Severity.warning ↔
        ¬ 1/2 < slowRateOf latencies latencyThreshold) ∧
      (slowFlag latencies latencyThreshold).message =
        toString (slowCallsOf latencies latencyThreshold).length ++ "/" ++
          toString latencies.length ++ " tool calls exceeded " ++
          jsNumToString latencyThreshold ++ "ms") ∧
    (latencyThreshold * 2 < durationMs →
      durationFlagsOf durationMs latencyThreshold = [durationFlag durationMs] ∧
      (durationFlag durationMs).severity = Severity.warning) ∧
    (¬ latencyThreshold * 2 < durationMs →
      durationFlagsOf durationMs latencyThreshold = []) ∧
    latencyFlagsOf latencies latencyThreshold durationMs =
      slowFlagsOf latencies latencyThreshold ++
        durationFlagsOf durationMs latencyThreshold := by
  refine ⟨?_, ?_, ?_, ?_, rfl⟩
  · intro h
    rw [latencyEfficiencyScore, slowFlagsOf, if_neg (by omega), if_neg (by omega)]
    exact ⟨rfl, rfl⟩
  · intro h
    refine ⟨?_, ?_, ?_, ?_, rfl⟩
    · rw [latencyEfficiencyScore, if_pos h, max_zero_round]
    · rw [slowFlagsOf, if_pos h]
    · by_cases hr : 1/2 < slowRateOf latencies latencyThreshold
      · simp [slowFlag, hr]
      · simp [slowFlag, hr]
    · by_cases hr : 1/2 < slowRateOf latencies latencyThreshold
      · simp [slowFlag, hr]
      · simp [slowFlag, hr]
  · intro h
    rw [durationFlagsOf, if_pos h]
    exact ⟨rfl, rfl⟩
  · intro h
    rw [durationFlagsOf, if_neg h]

/-- Witness for C3 at the spec example latencies = [1000, 2000, 45000,
50000], threshold = 30000 (with a run duration of 70000 > 2*30000): the
score is 50, the slow-call flag is a warning whose text contains 2/4,
and it coexists with the run-duration warning flag. -/
theorem c3_latency_efficiency_witness :
    latencyEfficiencyScore [1000, 2000, 45000, 50000] 30000 = 50 ∧
    (slowFlag [1000, 2000, 45000, 50000] 30000).severity = Severity.warning ∧
    (slowFlag [1000, 2000, 45000, 50000] 30000).message =
      "2/4 tool calls exceeded 30000ms" ∧
    latencyFlagsOf [1000, 2000, 45000, 50000] 30000 70000 =
      [slowFlag [1000, 2000, 45000, 50000] 30000, durationFlag 70000] := by
  obtain ⟨hall1, hall2, hall3, _, hall5⟩ :=
    c3_latency_efficiency [1000, 2000, 45000, 50000] 30000 70000
  obtain ⟨hs, hf, hcrit, hwarn, hmsg⟩ := hall2 (by decide)
  obtain ⟨hdur, _⟩ := hall3 (by norm_num)
  have hsc : slowCallsOf [1000, 2000, 45000, 50000] 30000 = [45000, 50000] := by decide
  have hrate : slowRateOf [1000, 2000, 45000, 50000] 30000 = 1/2 := by
    rw [slowRateOf, hsc]
    norm_num
  have h30 : jsNumToString (30000 : ℚ) = "30000" := by
    have hfl : ⌊(30000:ℚ)⌋ = 30000 := by norm_num
    rw [jsNumToString, if_neg (by norm_num : ¬ ((30000:ℚ) < 0)), jsNumToStringNonneg, hfl,
      if_pos (by norm_num : (30000:ℚ) - ((30000 : ℤ) : ℚ) = 0)]
    decide
  refine ⟨?_, ?_, ?_, ?_⟩
  · rw [hs, hrate, max_eq_right (by norm_num : (0:ℚ) ≤ (1 - 1/2) * 100)]
    norm_num [round_eq]
  · exact hwarn.mpr (by rw [hrate]; norm_num)
  · rw [hmsg, hsc, h30]
    decide
  · rw [hall5, hf, hdur]
    rfl

/-- C4: the overall trust score of the agent_end handler (plugin.ts,
lines 255-261) equals the half-up rounding of the 0.30/0.30/0.20/0.20
weighted sum of the four dimension scores, and for dimension scores in
[0, 100] it lies in [0, 100] with no further clamping in the code. -/
theorem c4_overall_weighted (r s c l : ℤ)
    (hr0 : 0 ≤ r) (hr1 : r ≤ 100) (hs0 : 0 ≤ s) (hs1 : s ≤ 100)
    (hc0 : 0 ≤ c) (hc1 : c ≤ 100) (hl0 : 0 ≤ l) (hl1 : l ≤ 100) :
    overallScore r s c l =
      round ((r : ℚ) * (30/100) + (s : ℚ) * (30/100) +
        (c : ℚ) * (20/100) + (l : ℚ) * (20/100)) ∧
    0 ≤ overallScore r s c l ∧ overallScore r s c l ≤ 100 := by
  have hr0q : (0:ℚ) ≤ (r : ℚ) := by exact_mod_cast hr0
  have hs0q : (0:ℚ) ≤ (s : ℚ) := by exact_mod_cast hs0
  have hc0q : (0:ℚ) ≤ (c : ℚ) := by exact_mod_cast hc0
  have hl0q : (0:ℚ) ≤ (l : ℚ) := by exact_mod_cast hl0
  have hr1q : (r : ℚ) ≤ 100 := by exact_mod_cast hr1
  have hs1q : (s : ℚ) ≤ 100 := by exact_mod_cast hs1
  have hc1q : (c : ℚ) ≤ 100 := by exact_mod_cast hc1
  have hl1q : (l : ℚ) ≤ 100 := by exact_mod_cast hl1
  have hw0 : (0:ℚ) ≤ (r : ℚ) * (30/100) + (s : ℚ) * (30/100) +
      (c : ℚ) * (20/100) + (l : ℚ) * (20/100) := by nlinarith
  have hw1 : (r : ℚ) * (30/100) + (s : ℚ) * (30/100) +
      (c : ℚ) * (20/100) + (l : ℚ) * (20/100) ≤ 100 := by nlinarith
  refine ⟨rfl, ?_, ?_⟩
  · have h := round_le_round_of_le hw0
    rw [round_zero] at h
    exact h
  · have h := round_le_round_of_le hw1
    have h100 : round ((100:ℚ)) = 100 := by norm_num [round_eq]
    rw [h100] at h
    exact h

/-- Witness for C4 at the spec example reliability = 100, scope = 50,
cost = 50, latency = 50: the overall score is 65 and lies in [0, 100]. -/
theorem c4_overall_weighted_witness :
    overallScore 100 50 50 50 = 65 ∧
    0 ≤ overallScore 100 50 50 50 ∧ overallScore 100 50 50 50 ≤ 100 := by
  obtain ⟨_, hlo, hhi⟩ := c4_overall_weighted 100 50 50 50
    (by norm_num) (by norm_num) (by norm_num) (by norm_num)
    (by norm_num) (by norm_num) (by norm_num) (by norm_num)
  refine ⟨?_, hlo, hhi⟩
  rw [overallScore]
  norm_num [round_eq]

-- ───────────── JSON values and sanitize (plugin.ts, lines 363-375) ─────────────

/-- JSON-serializable JavaScript values (tool parameters and results). -/
inductive JSValue where
  | jnull
  | jbool (b : Bool)
  | jnum (q : ℚ)
  | jstr (s : String)
  | jarr (elems : List JSValue)
  | jobj (fields : List (String × JSValue))

mutual

/-- JSON.stringify.  String escaping is not modelled (the length checks
of sanitize do not depend on it); circular values, which would make
JSON.stringify throw, are not representable in JSValue. -/
def jsonStringify : JSValue → String
  | .jnull => "null"
  | .jbool true => "true"
  | .jbool false => "false"
  | .jnum q => jsNumToString q
  | .jstr s => "\"" ++ s ++ "\""
  | .jarr elems => "[" ++ stringifyElems elems ++ "]"
  | .jobj fields => "\x7b" ++ stringifyFields fields ++ "\x7d"

/-- Comma-joined serialization of array elements. -/
def stringifyElems : List JSValue → String
  | [] => ""
  | [v] => jsonStringify v
  | v :: rest => jsonStringify v ++ "," ++ stringifyElems rest

/-- Comma-joined serialization of object fields. -/
def stringifyFields : List (String × JSValue) → String
  | [] => ""
  | [(k, v)] => "\"" ++ k ++ "\":" ++ jsonStringify v
  | (k, v) :: rest => "\"" ++ k ++ "\":" ++ jsonStringify v ++ "," ++ stringifyFields rest

end

/-- JavaScript truthiness of a JSON value (the !data test of sanitize). -/
def jsTruthy : JSValue → Bool
  | .jnull => false
  | .jbool b => b
  | .jnum q => q != 0
  | .jstr s => s != ""
  | .jarr _ => true
  | .jobj _ => true

/-- Whether typeof data === "object" (true for null, arrays, objects). -/
def jsTypeofObject : JSValue → Bool
  | .jnull => true
  | .jarr _ => true
  | .jobj _ => true
  | _ => false

/-- The size marker sanitize substitutes for an oversized payload. -/
def truncationMarker (size : Nat) : JSValue :=
  .jobj [("_truncated", .jbool true), ("_size", .jnum (size : ℚ))]

/-- sanitize from plugin.ts, lines 363-375: falsy or non-object data
becomes the empty object; an object whose serialized form is longer
than 10000 becomes a size marker; otherwise the data passes unchanged. -/
def sanitize (data : JSValue) : JSValue :=
  if jsTruthy data = false ∨ jsTypeofObject data = false then .jobj []
  else if (jsonStringify data).length > 10000 then
    truncationMarker (jsonStringify data).length
  else data

-- ───────────── Association-list model of a JavaScript Map ─────────────

section AssocMap

variable {β : Type}

/-- Map.get: the value at a key, if present (first matching entry). -/
def lookupA (k : String) : List (String × β) → Option β
  | [] => none
  | kv :: rest => if kv.1 = k then some kv.2 else lookupA k rest

/-- Map.set: replace in place when the key is present, else append. -/
def setA (k : String) (v : β) : List (String × β) → List (String × β)
  | [] => [(k, v)]
  | kv :: rest => if kv.1 = k then (k, v) :: rest else kv :: setA k v rest

/-- Map.delete: drop the (first) entry with the key. -/
def eraseA (k : String) : List (String × β) → List (String × β)
  | [] => []
  | kv :: rest => if kv.1 = k then rest else kv :: eraseA k rest

/-- The number of entries stored under a key. -/
def countKeyA (k : String) (m : List (String × β)) : Nat :=
  (m.filter (fun kv => decide (kv.1 = k))).length

end AssocMap

-- ───────────── Run records and registry (src/unnamed/part_001) ─────────────

/-- An action record, from the ActionRecord interface of part_001. -/
structure ActionRecord where
  type : String
  timestamp : String
  model : Option String := none
  tokens : Option ℕ := none
  cost : Option ℚ := none
  latencyMs : Option ℚ := none
  toolName : Option String := none
  toolParams : Option JSValue := none
  scopeViolation : Option Bool := none

/-- A run record, from the RunState interface of part_001. -/
structure RunState where
  runId : String
  sessionKey : String
  startedAt : ℤ
  actions : List ActionRecord
  totalTokens : ℕ
  totalCost : ℚ
  toolCalls : List String
  scopeViolations : List String
  latencies : List ℚ
  lastActivityAt : ℤ

/-- The registry: the Map from session key to in-flight run record. -/
abbrev Registry := List (String × RunState)

/-- The fresh empty record installed by getOrCreateRun of part_001. -/
def freshRun (sessionKey runId : String) (now : ℤ) : RunState :=
  { runId := runId
    sessionKey := sessionKey
    startedAt := now
    actions := []
    totalTokens := 0
    totalCost := 0
    toolCalls := []
    scopeViolations := []
    latencies := []
    lastActivityAt := now }

/-- getOrCreateRun from part_001, lines 329-348: return the stored
record when its run identity matches (refreshing lastActivityAt, which
the code mutates on the stored object), else install a fresh record. -/
def getOrCreateRun (sessionKey runId : String) (now : ℤ) (runs : Registry) :
    RunState × Registry :=
  match lookupA sessionKey runs with
  | some r =>
    if r.runId = runId then
      ({ r with lastActivityAt := now },
       setA sessionKey { r with lastActivityAt := now } runs)
    else
      (freshRun sessionKey runId now,
       setA sessionKey (freshRun sessionKey runId now) runs)
  | none =>
    (freshRun sessionKey runId now,
     setA sessionKey (freshRun sessionKey runId now) runs)

/-- STALE_RUN_TTL_MS = 5 * 60 * 1000 from part_001, line 303. -/
def STALE_RUN_TTL_MS : ℤ := 5 * 60 * 1000

/-- evictStaleRuns from part_001, lines 350-357: delete every record
with now - lastActivityAt > STALE_RUN_TTL_MS. -/
def evictStaleRuns (now : ℤ) (runs : Registry) : Registry :=
  runs.filter (fun kv => decide (now - kv.2.lastActivityAt ≤ STALE_RUN_TTL_MS))

/-- The registry effect of the llm_input hook of part_001, lines
553-568: the handler first runs evictStaleRuns, then getOrCreateRun for
the inbound event's session. -/
def llmInputStep (now : ℤ) (sessionKey runId : String) (runs : Registry) : Registry :=
  (getOrCreateRun sessionKey runId now (evictStaleRuns now runs)).2

/-- The registry operations of part_001: an inbound event (llm_input,
llm_output or after_tool_call lookup-or-create), the staleness sweep,
and removal of a scored run. -/
inductive RegOp where
  | event (sessionKey runId : String) (now : ℤ)
  | sweep (now : ℤ)
  | remove (sessionKey : String)

/-- Applying one registry operation. -/
def applyOp : RegOp → Registry → Registry
  | .event sk rid now, runs => (getOrCreateRun sk rid now runs).2
  | .sweep now, runs => evictStaleRuns now runs
  | .remove sk, runs => eraseA sk runs

/-- Registry states reachable from the empty initial Map. -/
inductive ReachableReg : Registry → Prop where
  | init : ReachableReg []
  | step (op : RegOp) {runs : Registry} :
      ReachableReg runs → ReachableReg (applyOp op runs)

-- ───────────────────────── Association-map lemmas ─────────────────────────

/-- countKeyA of the empty map. -/
theorem countKeyA_nil {β : Type} (k : String) :
    countKeyA k ([] : List (String × β)) = 0 := rfl

/-- countKeyA of a cons cell. -/
theorem countKeyA_cons {β : Type} (k : String) (kv : String × β) (m : List (String × β)) :
    countKeyA k (kv :: m) = (if kv.1 = k then 1 else 0) + countKeyA k m := by
  by_cases h : kv.1 = k <;> simp [countKeyA, List.filter_cons, h] <;> omega

/-- Map.set changes only the count at its own key, and caps it at
least 1 there. -/
theorem countKeyA_setA {β : Type} (k k2 : String) (v : β) (m : List (String × β)) :
    countKeyA k2 (setA k v m) =
      if k2 = k then max (countKeyA k2 m) 1 else countKeyA k2 m := by
  induction m with
  | nil =>
    rw [show setA k v ([] : List (String × β)) = [(k, v)] from rfl,
      countKeyA_cons, countKeyA_nil]
    by_cases h : k2 = k
    · subst h; simp
    · rw [if_neg (fun hc : k = k2 => h hc.symm), if_neg h]
  | cons kv rest ih =>
    by_cases hk : kv.1 = k
    · rw [show setA k v (kv :: rest) = (k, v) :: rest from by simp [setA, hk],
        countKeyA_cons, countKeyA_cons]
      by_cases h : k2 = k
      · have h1 : ((k, v) : String × β).1 = k2 := h.symm
        have h2 : kv.1 = k2 := by rw [hk, h]
        rw [if_pos h1, if_pos h2, if_pos h]
        omega
      · have h1 : ¬ ((k, v) : String × β).1 = k2 := fun hc => h hc.symm
        have h2 : ¬ kv.1 = k2 := fun hc => h (by rw [← hc]; exact hk)
        rw [if_neg h1, if_neg h2, if_neg h]
    · rw [show setA k v (kv :: rest) = kv :: setA k v rest from by simp [setA, hk],
        countKeyA_cons, countKeyA_cons, ih]
      by_cases h : k2 = k
      · have h2 : ¬ kv.1 = k2 := fun hc => hk (by rw [hc, h])
        rw [if_pos h, if_pos h, if_neg h2]
        omega
      · rw [if_neg h, if_neg h]

/-- Filtering a map never raises a key count. -/
theorem countKeyA_filter_le {β : Type} (k : String) (p : String × β → Bool)
    (m : List (String × β)) : countKeyA k (m.filter p) ≤ countKeyA k m :=
  List.Sublist.length_le (List.Sublist.filter _ (List.filter_sublist m))

/-- Map.delete yields a sublist of the map. -/
theorem eraseA_sublist {β : Type} (k : String) (m : List (String × β)) :
    List.Sublist (eraseA k m) m := by
  induction m with
  | nil => exact List.Sublist.refl _
  | cons kv rest ih =>
    by_cases h : kv.1 = k
    · rw [show eraseA k (kv :: rest) = rest from by simp [eraseA, h]]
      exact List.sublist_cons_self kv rest
    · rw [show eraseA k (kv :: rest) = kv :: eraseA k rest from by simp [eraseA, h]]
      exact ih.cons₂ kv

/-- Map.delete never raises a key count. -/
theorem countKeyA_eraseA_le {β : Type} (k k2 : String) (m : List (String × β)) :
    countKeyA k2 (eraseA k m) ≤ countKeyA k2 m :=
  List.Sublist.length_le (List.Sublist.filter _ (eraseA_sublist k m))

/-- The registry getOrCreateRun writes back through Map.set in every
branch. -/
theorem getOrCreateRun_snd (sessionKey runId : String) (now : ℤ) (runs : Registry) :
    (getOrCreateRun sessionKey runId now runs).2 =
      setA sessionKey (getOrCreateRun sessionKey runId now runs).1 runs := by
  unfold getOrCreateRun
  cases h : lookupA sessionKey runs with
  | some r => by_cases hr : r.runId = runId <;> simp [hr]
  | none => simp

/-- Every reachable registry state stores at most one record per
session key. -/
theorem reachable_countKeyA_le_one {runs : Registry} (h : ReachableReg runs) :
    ∀ k, countKeyA k runs ≤ 1 := by
  induction h with
  | init => intro k; simp [countKeyA_nil]
  | step op hr ih =>
    intro k
    cases op with
    | event sk rid now =>
      show countKeyA k (getOrCreateRun sk rid now _).2 ≤ 1
      rw [getOrCreateRun_snd, countKeyA_setA]
      split_ifs
      · have := ih k
        omega
      · exact ih k
    | sweep now => exact le_trans (countKeyA_filter_le k _ _) (ih k)
    | remove sk => exact le_trans (countKeyA_eraseA_le sk k _) (ih k)

-- ───────────────────────── Claims C5 and C6 ─────────────────────────

/-- C5 (amended): the staleness sweep evictStaleRuns keeps exactly the
records whose idle time now - lastActivityAt is at most the fixed
five-minute STALE_RUN_TTL_MS (so every record idle strictly beyond the
TTL is absent afterwards, and every record active within it survives);
the sweep is invoked as the first step of handling each llm_input
event, as llmInputStep records, not by a periodic timer. -/
theorem c5_evict_stale (now : ℤ) (runs : Registry) (key : String) (r : RunState)
    (sessionKey runId : String) :
    ((key, r) ∈ evictStaleRuns now runs ↔
      (key, r) ∈ runs ∧ now - r.lastActivityAt ≤ STALE_RUN_TTL_MS) ∧
    llmInputStep now sessionKey runId runs =
      (getOrCreateRun sessionKey runId now (evictStaleRuns now runs)).2 := by
  constructor
  · simp [evictStaleRuns, List.mem_filter]
  · rfl

/-- A record whose last activity was at time 0 in the registry. -/
def staleDemoRun : RunState := freshRun "s1" "r1" 0

/-- C5 counterexample to the claim as stated: the staleness sweep does
not run on a periodic maintenance tick independent of event traffic —
it runs inside the llm_input event handler.  Concretely, a registry
holding the record of session s1 (idle since time 0) loses that record
when an ordinary llm_input event for a different session s2 is handled
at time 1000000, with no maintenance tick involved; the TTL is also the
fixed constant 300000 ms, not a configured value. -/
theorem c5_counterexample :
    (lookupA "s1" [("s1", staleDemoRun)]).isSome = true ∧
    (lookupA "s1" (llmInputStep 1000000 "s2" "r2" [("s1", staleDemoRun)])).isSome = false := by
  exact ⟨rfl, rfl⟩

/-- C6: every reachable registry state holds at most one record per
session key; getOrCreateRun returns the stored record (with its
last-activity time refreshed to now) exactly when the stored run
identity equals runId, and otherwise — differing run identity or no
record — installs the fresh empty record freshRun, whose action log and
aggregate counters are all empty, with nothing merged from the prior
record. -/
theorem c6_get_or_create (runs : Registry) (h : ReachableReg runs)
    (sessionKey runId : String) (now : ℤ) :
    (∀ k, countKeyA k runs ≤ 1) ∧
    (∀ r, lookupA sessionKey runs = some r → r.runId = runId →
      getOrCreateRun sessionKey runId now runs =
        ({ r with lastActivityAt := now },
          setA sessionKey { r with lastActivityAt := now } runs)) ∧
    (∀ r, lookupA sessionKey runs = some r → ¬ r.runId = runId →
      getOrCreateRun sessionKey runId now runs =
        (freshRun sessionKey runId now,
          setA sessionKey (freshRun sessionKey runId now) runs)) ∧
    (lookupA sessionKey runs = none →
      getOrCreateRun sessionKey runId now runs =
        (freshRun sessionKey runId now,
          setA sessionKey (freshRun sessionKey runId now) runs)) ∧
    (freshRun sessionKey runId now).actions = [] ∧
    (freshRun sessionKey runId now).totalTokens = 0 ∧
    (freshRun sessionKey runId now).totalCost = 0 ∧
    (freshRun sessionKey runId now).toolCalls = [] ∧
    (freshRun sessionKey runId now).scopeViolations = [] ∧
    (freshRun sessionKey runId now).latencies = [] := by
  refine ⟨reachable_countKeyA_le_one h, ?_, ?_, ?_, rfl, rfl, rfl, rfl, rfl, rfl⟩
  · intro r hr hid
    simp [getOrCreateRun, hr, hid]
  · intro r hr hid
    simp [getOrCreateRun, hr, hid]
  · intro hr
    simp [getOrCreateRun, hr]

/-- Witness for C6: from the empty registry, one event for session s
installs a record for run r; a later event for the same session with
the different run identity r2 replaces it with the fresh empty record
for r2, merging nothing. -/
theorem c6_get_or_create_witness :
    (∀ k, countKeyA k (applyOp (RegOp.event "s" "r" 5) []) ≤ 1) ∧
    getOrCreateRun "s" "r2" 9 (applyOp (RegOp.event "s" "r" 5) []) =
      (freshRun "s" "r2" 9,
        setA "s" (freshRun "s" "r2" 9) (applyOp (RegOp.event "s" "r" 5) [])) ∧
    (freshRun "s" "r2" 9).actions = [] ∧ (freshRun "s" "r2" 9).toolCalls = [] := by
  have h := c6_get_or_create (applyOp (RegOp.event "s" "r" 5) [])
    (ReachableReg.step _ ReachableReg.init) "s" "r2" 9
  refine ⟨h.1, ?_, rfl, rfl⟩
  exact h.2.2.1 (freshRun "s" "r" 5) rfl (by decide)

-- ───────────────────────── Claim C9 ─────────────────────────

/-- C9 counterexample to the claim as stated: a captured action's
output summary can be a non-object value (event.result is untyped), and
sanitize replaces every falsy or non-object value by the empty object
regardless of size.  The string "ok" serializes well within the 10000
budget yet is not included unchanged. -/
theorem c9_counterexample :
    (jsonStringify (JSValue.jstr "ok")).length ≤ 10000 ∧
    ¬ sanitize (JSValue.jstr "ok") = JSValue.jstr "ok" := by
  refine ⟨by decide, fun hc => ?_⟩
  rw [show sanitize (JSValue.jstr "ok") = JSValue.jobj [] from rfl] at hc
  exact JSValue.noConfusion hc

/-- C9 (amended): for truthy object-typed data (objects and arrays),
sanitize keeps the summary unchanged when its serialized form is within
the fixed 10000 budget and replaces it by the size marker (not dropping
it) when the serialized form exceeds the budget; falsy or non-object
data is replaced by the empty object regardless of size. -/
theorem c9_sanitize (v : JSValue) :
    (jsTruthy v = true → jsTypeofObject v = true →
      ((jsonStringify v).length ≤ 10000 → sanitize v = v) ∧
      (10000 < (jsonStringify v).length →
        sanitize v = truncationMarker (jsonStringify v).length)) ∧
    (jsTruthy v = false ∨ jsTypeofObject v = false →
      sanitize v = JSValue.jobj []) := by
  constructor
  · intro h1 h2
    constructor
    · intro hlen
      rw [sanitize, if_neg (by simp [h1, h2]), if_neg (by omega)]
    · intro hlen
      rw [sanitize, if_neg (by simp [h1, h2]), if_pos (by omega)]
  · intro h
    rw [sanitize, if_pos h]

/-- Witness for C9 at a small object: within the budget, sanitize keeps
it unchanged. -/
theorem c9_sanitize_witness :
    jsTruthy (JSValue.jobj [("a", JSValue.jnull)]) = true ∧
    jsTypeofObject (JSValue.jobj [("a", JSValue.jnull)]) = true ∧
    (jsonStringify (JSValue.jobj [("a", JSValue.jnull)])).length ≤ 10000 ∧
    sanitize (JSValue.jobj [("a", JSValue.jnull)]) =
      JSValue.jobj [("a", JSValue.jnull)] := by
  refine ⟨rfl, rfl, by decide, ?_⟩
  exact ((c9_sanitize (JSValue.jobj [("a", JSValue.jnull)])).1 rfl rfl).1 (by decide)

-- ───────────── plugin.ts run records and message-scan reconciliation ─────────────

/-- A captured action, from the CapturedAction interface of plugin.ts. -/
structure CapturedAction where
  type : String
  tool : String
  status : String
  durationMs : ℚ
  scopeMatch : Bool
  timestamp : String
  input : JSValue
  output : JSValue
  sessionId : String

/-- The per-session run state of the activeRuns map of plugin.ts. -/
structure PluginRun where
  sessionKey : String
  startedAt : ℤ
  actions : List CapturedAction
  toolCalls : List String
  scopeViolations : List String
  latencies : List ℚ
  errors : ℕ

/-- A content block of an agent message (AgentEndEvent of plugin.ts). -/
structure ContentBlock where
  type : String
  name : Option String := none
  text : Option String := none

/-- Message content: absent, a plain string, or an array of blocks. -/
inductive MsgContent where
  | absent
  | text (s : String)
  | blocks (bs : List ContentBlock)

/-- A message of the completed history handed to agent_end. -/
structure Message where
  role : String
  content : MsgContent

/-- The tool names of the tool_use blocks of one message (the inner
loop of extractToolsFromMessages); block.name must be truthy. -/
def blockToolNames : List ContentBlock → List String
  | [] => []
  | b :: bs =>
    match b.name with
    | some s =>
      if b.type = "tool_use" ∧ s ≠ "" then s :: blockToolNames bs else blockToolNames bs
    | none => blockToolNames bs

/-- extractToolsFromMessages from plugin.ts, lines 347-361. -/
def extractToolsFromMessages : List Message → List String
  | [] => []
  | m :: ms =>
    (match m.content with
     | .blocks bs => if m.role = "assistant" then blockToolNames bs else []
     | _ => []) ++ extractToolsFromMessages ms

/-- scopeMatch = allowedTools.length === 0 or allowedTools.includes(t). -/
def scopeCheck (allowedTools : List String) (t : String) : Bool :=
  decide (allowedTools.length = 0 ∨ t ∈ allowedTools)

/-- The synthetic zero-duration action appended by the message-scan
reconciliation of the agent_end handler (plugin.ts, lines 179-189). -/
def syntheticAction (t : String) (scopeMatch : Bool) (timestamp sessionKey : String) :
    CapturedAction :=
  { type := "tool_call", tool := t, status := "success", durationMs := 0
    scopeMatch := scopeMatch, timestamp := timestamp
    input := .jobj [], output := .jobj [], sessionId := sessionKey }

/-- One iteration of the message-scan loop of the agent_end handler
(plugin.ts, lines 173-191): a tool name already among the record's
captured tool calls is skipped; a new one is appended to toolCalls,
scope-checked, and a synthetic action is appended. -/
def scanTool (allowedTools : List String) (timestamp : String) (run : PluginRun)
    (t : String) : PluginRun :=
  if t ∈ run.toolCalls then run
  else
    { run with
      toolCalls := run.toolCalls ++ [t]
      scopeViolations :=
        if scopeCheck allowedTools t then run.scopeViolations
        else run.scopeViolations ++ [t]
      actions := run.actions ++
        [syntheticAction t (scopeCheck allowedTools t) timestamp run.sessionKey] }

/-- The whole message-scan loop over a list of extracted tool names. -/
def messageScan (allowedTools : List String) (timestamp : String) (run : PluginRun) :
    List String → PluginRun
  | [] => run
  | t :: ts => messageScan allowedTools timestamp (scanTool allowedTools timestamp run t) ts

/-- The fallback reconciliation of the agent_end handler: scan the
completed message history and fold the extracted names into the run. -/
def reconcileRun (allowedTools : List String) (timestamp : String) (run : PluginRun)
    (messages : List Message) : PluginRun :=
  messageScan allowedTools timestamp run (extractToolsFromMessages messages)

/-- How many actions of the log carry a given tool name. -/
def countToolActions (t : String) (actions : List CapturedAction) : Nat :=
  (actions.filter (fun a => decide (a.tool = t))).length

-- ───────────────────────── Message-scan lemmas ─────────────────────────

/-- countToolActions distributes over append. -/
theorem countToolActions_append (t : String) (l1 l2 : List CapturedAction) :
    countToolActions t (l1 ++ l2) = countToolActions t l1 + countToolActions t l2 := by
  simp [countToolActions, List.filter_append]

/-- scanTool is the identity on an already-captured tool name. -/
theorem scanTool_mem_eq (al : List String) (ts : String) (run : PluginRun) (t : String)
    (h : t ∈ run.toolCalls) : scanTool al ts run t = run := by
  simp [scanTool, h]

/-- scanTool appends a new tool name to toolCalls. -/
theorem scanTool_not_mem_toolCalls (al : List String) (ts : String) (run : PluginRun)
    (t : String) (h : ¬ t ∈ run.toolCalls) :
    (scanTool al ts run t).toolCalls = run.toolCalls ++ [t] := by
  simp [scanTool, h]

/-- scanTool appends one synthetic action for a new tool name. -/
theorem scanTool_not_mem_actions (al : List String) (ts : String) (run : PluginRun)
    (t : String) (h : ¬ t ∈ run.toolCalls) :
    (scanTool al ts run t).actions =
      run.actions ++ [syntheticAction t (scopeCheck al t) ts run.sessionKey] := by
  simp [scanTool, h]

/-- Unfolding one step of messageScan. -/
theorem messageScan_cons (al : List String) (ts : String) (run : PluginRun)
    (t : String) (l : List String) :
    messageScan al ts run (t :: l) = messageScan al ts (scanTool al ts run t) l := rfl

/-- toolCalls after the scan: the old names plus the scanned ones. -/
theorem messageScan_toolCalls_mem (al : List String) (ts : String) :
    ∀ (l : List String) (run : PluginRun) (x : String),
      x ∈ (messageScan al ts run l).toolCalls ↔ x ∈ run.toolCalls ∨ x ∈ l := by
  intro l
  induction l with
  | nil => intro run x; simp [messageScan]
  | cons u l ih =>
    intro run x
    rw [messageScan_cons, ih]
    by_cases hu : u ∈ run.toolCalls
    · rw [scanTool_mem_eq al ts run u hu]
      simp only [List.mem_cons]
      constructor
      · rintro (hx | hx)
        · exact Or.inl hx
        · exact Or.inr (Or.inr hx)
      · rintro (hx | rfl | hx)
        · exact Or.inl hx
        · exact Or.inl hu
        · exact Or.inr hx
    · rw [show (scanTool al ts run u).toolCalls = run.toolCalls ++ [u] from
        scanTool_not_mem_toolCalls al ts run u hu]
      simp only [List.mem_append, List.mem_singleton, List.mem_cons]
      tauto

/-- The scan changes nothing when every scanned name is already
captured. -/
theorem messageScan_covered_eq (al : List String) (ts : String) :
    ∀ (l : List String) (run : PluginRun), (∀ t ∈ l, t ∈ run.toolCalls) →
      messageScan al ts run l = run := by
  intro l
  induction l with
  | nil => intro run _; rfl
  | cons u l ih =>
    intro run h
    rw [messageScan_cons, scanTool_mem_eq al ts run u (h u (List.mem_cons_self u l))]
    exact ih run (fun t ht => h t (List.mem_cons_of_mem u ht))

/-- Scanning the same name list twice equals scanning it once. -/
theorem messageScan_idem (al : List String) (ts1 ts2 : String) (l : List String)
    (run : PluginRun) :
    messageScan al ts2 (messageScan al ts1 run l) l = messageScan al ts1 run l :=
  messageScan_covered_eq al ts2 l _
    (fun t ht => (messageScan_toolCalls_mem al ts1 l run t).mpr (Or.inr ht))

/-- The scan adds no action for a name already among the captured tool
calls. -/
theorem messageScan_count_mem (al : List String) (ts : String) :
    ∀ (l : List String) (run : PluginRun) (t : String), t ∈ run.toolCalls →
      countToolActions t (messageScan al ts run l).actions =
        countToolActions t run.actions := by
  intro l
  induction l with
  | nil => intro run t _; rfl
  | cons u l ih =>
    intro run t ht
    rw [messageScan_cons]
    by_cases hu : u ∈ run.toolCalls
    · rw [scanTool_mem_eq al ts run u hu]
      exact ih run t ht
    · have hne : ¬ u = t := fun he => hu (he ▸ ht)
      rw [ih _ t (by
        rw [scanTool_not_mem_toolCalls al ts run u hu]
        exact List.mem_append_left _ ht)]
      rw [scanTool_not_mem_actions al ts run u hu, countToolActions_append]
      simp [countToolActions, syntheticAction, hne]

/-- The scan adds exactly one action for a new name that occurs among
the scanned names, and none for a name that does not. -/
theorem messageScan_count_new (al : List String) (ts : String) :
    ∀ (l : List String) (run : PluginRun) (t : String), ¬ t ∈ run.toolCalls →
      countToolActions t (messageScan al ts run l).actions =
        countToolActions t run.actions + (if t ∈ l then 1 else 0) := by
  intro l
  induction l with
  | nil => intro run t _; simp [messageScan]
  | cons u l ih =>
    intro run t ht
    rw [messageScan_cons]
    by_cases hu : u ∈ run.toolCalls
    · have hne : ¬ t = u := fun he => ht (he ▸ hu)
      rw [scanTool_mem_eq al ts run u hu, ih run t ht]
      simp [List.mem_cons, hne]
    · by_cases htu : t = u
      · subst htu
        rw [messageScan_count_mem al ts l _ t (by
          rw [scanTool_not_mem_toolCalls al ts run t hu]
          exact List.mem_append_right _ (List.mem_singleton.mpr rfl))]
        rw [scanTool_not_mem_actions al ts run t hu, countToolActions_append]
        simp [countToolActions, syntheticAction, List.mem_cons]
      · have hne2 : ¬ t ∈ (scanTool al ts run u).toolCalls := by
          rw [scanTool_not_mem_toolCalls al ts run u hu]
          simp [ht, htu]
        rw [ih _ t hne2, scanTool_not_mem_actions al ts run u hu, countToolActions_append]
        have hut : ¬ u = t := fun h => htu h.symm
        simp [countToolActions, syntheticAction, hut, List.mem_cons, htu]

/-- Every action present after the scan is an old action or a synthetic
zero-duration success action carrying the same scope check. -/
theorem messageScan_actions_mem (al : List String) (ts : String) :
    ∀ (l : List String) (run : PluginRun) (a : CapturedAction),
      a ∈ (messageScan al ts run l).actions →
      a ∈ run.actions ∨
        (a.durationMs = 0 ∧ a.scopeMatch = scopeCheck al a.tool ∧
         a.type = "tool_call" ∧ a.status = "success") := by
  intro l
  induction l with
  | nil => intro run a ha; exact Or.inl ha
  | cons u l ih =>
    intro run a ha
    rw [messageScan_cons] at ha
    rcases ih _ a ha with h | h
    · by_cases hu : u ∈ run.toolCalls
      · rw [scanTool_mem_eq al ts run u hu] at h
        exact Or.inl h
      · rw [scanTool_not_mem_actions al ts run u hu] at h
        rcases List.mem_append.mp h with h2 | h2
        · exact Or.inl h2
        · rcases List.mem_singleton.mp h2 with rfl
          exact Or.inr ⟨rfl, rfl, rfl, rfl⟩
    · exact Or.inr h

-- ───────────────────────── Claim C7 ─────────────────────────

/-- C7: the fallback message scan of the agent_end handler is idempotent
by name — scanning the same completed message history twice equals
scanning it once; a tool name not already among the record's captured
tool calls enters the action log exactly once (and zero times if absent
from the history), a name already captured gains no action, and every
appended synthetic action has zero duration, status success, and the
same scope check applied to its tool name. -/
theorem c7_message_scan (allowedTools : List String) (ts1 ts2 : String)
    (run : PluginRun) (messages : List Message) :
    reconcileRun allowedTools ts2 (reconcileRun allowedTools ts1 run messages) messages =
      reconcileRun allowedTools ts1 run messages ∧
    (∀ t, ¬ t ∈ run.toolCalls →
      countToolActions t (reconcileRun allowedTools ts1 run messages).actions =
        countToolActions t run.actions +
          (if t ∈ extractToolsFromMessages messages then 1 else 0)) ∧
    (∀ t, t ∈ run.toolCalls →
      countToolActions t (reconcileRun allowedTools ts1 run messages).actions =
        countToolActions t run.actions) ∧
    (∀ a, a ∈ (reconcileRun allowedTools ts1 run messages).actions →
      a ∈ run.actions ∨
        (a.durationMs = 0 ∧ a.scopeMatch = scopeCheck allowedTools a.tool ∧
         a.type = "tool_call" ∧ a.status = "success")) := by
  refine ⟨messageScan_idem allowedTools ts1 ts2 _ run, ?_, ?_, ?_⟩
  · intro t ht
    exact messageScan_count_new allowedTools ts1 _ run t ht
  · intro t ht
    exact messageScan_count_mem allowedTools ts1 _ run t ht
  · intro a ha
    exact messageScan_actions_mem allowedTools ts1 _ run a ha

/-- An empty run record for session s. -/
def demoRun : PluginRun :=
  { sessionKey := "s", startedAt := 0, actions := [], toolCalls := []
    scopeViolations := [], latencies := [], errors := 0 }

/-- A completed history with one assistant tool_use block for alpha. -/
def demoMessages : List Message :=
  [{ role := "assistant"
     content := .blocks [{ type := "tool_use", name := some "alpha" }] }]

/-- Witness for C7: scanning a history mentioning alpha once adds one
action for alpha to an empty run, and a second scan changes nothing. -/
theorem c7_message_scan_witness :
    extractToolsFromMessages demoMessages = ["alpha"] ∧
    countToolActions "alpha" (reconcileRun [] "t1" demoRun demoMessages).actions = 1 ∧
    reconcileRun [] "t2" (reconcileRun [] "t1" demoRun demoMessages) demoMessages =
      reconcileRun [] "t1" demoRun demoMessages := by
  have h := c7_message_scan [] "t1" "t2" demoRun demoMessages
  refine ⟨rfl, ?_, h.1⟩
  rw [h.2.1 "alpha" (by decide)]
  decide

-- ───────────── after_tool_call / agent_end registry effects (plugin.ts) ─────────────

/-- Further lookup lemmas for the Map model. -/
theorem lookupA_setA_self {β : Type} (k : String) (v : β) (m : List (String × β)) :
    lookupA k (setA k v m) = some v := by
  induction m with
  | nil => simp [setA, lookupA]
  | cons kv rest ih =>
    by_cases h : kv.1 = k
    · simp [setA, h, lookupA]
    · simp [setA, h, lookupA, ih]

/-- Map.set leaves every other key unchanged. -/
theorem lookupA_setA_ne {β : Type} (k k2 : String) (v : β) (m : List (String × β))
    (h : ¬ k2 = k) : lookupA k2 (setA k v m) = lookupA k2 m := by
  have h3 : ¬ k = k2 := fun hc => h hc.symm
  induction m with
  | nil => simp [setA, lookupA, h3]
  | cons kv rest ih =>
    by_cases hk : kv.1 = k
    · have h2 : ¬ kv.1 = k2 := by rw [hk]; exact h3
      simp [setA, hk, lookupA, h3, h2]
    · simp [setA, hk, lookupA, ih]

/-- Deleting a key from a map holding it at most once empties that key. -/
theorem countKeyA_eraseA_self_zero {β : Type} (k : String) (m : List (String × β))
    (h : countKeyA k m ≤ 1) : countKeyA k (eraseA k m) = 0 := by
  induction m with
  | nil => rfl
  | cons kv rest ih =>
    rw [countKeyA_cons] at h
    by_cases hk : kv.1 = k
    · rw [show eraseA k (kv :: rest) = rest from by simp [eraseA, hk]]
      rw [if_pos hk] at h
      omega
    · rw [show eraseA k (kv :: rest) = kv :: eraseA k rest from by simp [eraseA, hk],
        countKeyA_cons, if_neg hk]
      rw [if_neg hk] at h
      have := ih (by omega)
      omega

/-- A key stored zero times cannot be looked up. -/
theorem lookupA_none_of_countKeyA_zero {β : Type} (k : String) (m : List (String × β))
    (h : countKeyA k m = 0) : lookupA k m = none := by
  induction m with
  | nil => rfl
  | cons kv rest ih =>
    rw [countKeyA_cons] at h
    by_cases hk : kv.1 = k
    · rw [if_pos hk] at h
      exact absurd h (by omega)
    · rw [if_neg hk] at h
      simp only [lookupA, if_neg hk]
      exact ih (by omega)

/-- An inbound after_tool_call event of plugin.ts. -/
structure ToolCallEventM where
  toolName : Option String := none
  durationMs : Option ℚ := none
  error : Option String := none
  params : JSValue := .jobj []
  result : JSValue := .jnull

/-- isError = !!event.error (an empty error string is falsy). -/
def isErrorOf (e : ToolCallEventM) : Bool :=
  match e.error with
  | some s => s != ""
  | none => false

/-- The empty run state installed for a first event of a session
(plugin.ts, lines 103-113). -/
def emptyPluginRun (sessionKey : String) (now : ℤ) : PluginRun :=
  { sessionKey := sessionKey, startedAt := now, actions := [], toolCalls := []
    scopeViolations := [], latencies := [], errors := 0 }

/-- The action captured for API submission (plugin.ts, lines 127-139). -/
def capturedOf (e : ToolCallEventM) (toolName : String) (scopeMatch : Bool)
    (timestamp sessionKey : String) : CapturedAction :=
  { type := "tool_call"
    tool := toolName
    status := if isErrorOf e then "error" else "success"
    durationMs := e.durationMs.getD 0
    scopeMatch := scopeMatch
    timestamp := timestamp
    input := sanitize e.params
    output :=
      match e.error with
      | some err => if err != "" then .jobj [("error", .jstr err)] else sanitize e.result
      | none => sanitize e.result
    sessionId := sessionKey }

/-- The per-event mutation of the run record performed by the
after_tool_call handler (plugin.ts, lines 116-139). -/
def trackTool (allowedTools : List String) (timestamp : String) (e : ToolCallEventM)
    (toolName sessionKey : String) (run : PluginRun) : PluginRun :=
  { run with
    toolCalls := run.toolCalls ++ [toolName]
    latencies := run.latencies ++ [e.durationMs.getD 0]
    errors := run.errors + (if isErrorOf e then 1 else 0)
    scopeViolations :=
      if scopeCheck allowedTools toolName then run.scopeViolations
      else run.scopeViolations ++ [toolName]
    actions := run.actions ++
      [capturedOf e toolName (scopeCheck allowedTools toolName) timestamp sessionKey] }

/-- The registry effect of the after_tool_call handler (plugin.ts,
lines 97-157): resolve the session key (missing key becomes unknown),
get or create the session's record, and track the tool call on it. -/
def afterToolCall (allowedTools : List String) (now : ℤ) (timestamp : String)
    (ctxSessionKey : Option String) (e : ToolCallEventM)
    (runs : List (String × PluginRun)) : List (String × PluginRun) :=
  let sessionKey := ctxSessionKey.getD "unknown"
  let toolName := e.toolName.getD "unknown"
  let base :=
    match lookupA sessionKey runs with
    | some r => r
    | none => emptyPluginRun sessionKey now
  setA sessionKey (trackTool allowedTools timestamp e toolName sessionKey base) runs

/-- The registry effect of the agent_end handler (plugin.ts, lines
162-333): resolve the session key the same way, delete that session's
record after scoring and reporting, then drop runs started over an hour
ago. -/
def agentEndRegistry (now : ℤ) (ctxSessionKey : Option String)
    (runs : List (String × PluginRun)) : List (String × PluginRun) :=
  (eraseA (ctxSessionKey.getD "unknown") runs).filter
    (fun kv => decide (now - kv.2.startedAt ≤ 3600000))

-- ───────────────────────── Claim C10 ─────────────────────────

/-- C10: when the context of an inbound tool-call or run-end event
carries no session key, both handlers substitute the fixed key unknown:
an after_tool_call event without a session key touches only the record
stored under unknown, appending its tool name to that shared record (so
events from distinct real sessions accumulate there), and the next
run-end event without a session key deletes the unknown record from the
registry (after scoring and reporting it as one run). -/
theorem c10_unknown_session (allowedTools : List String) (now now2 : ℤ)
    (timestamp : String) (e : ToolCallEventM) (runs : List (String × PluginRun))
    (h1 : countKeyA "unknown" runs ≤ 1) :
    (∀ k, ¬ k = "unknown" →
      lookupA k (afterToolCall allowedTools now timestamp none e runs) = lookupA k runs) ∧
    (∃ run2, lookupA "unknown" (afterToolCall allowedTools now timestamp none e runs) =
        some run2 ∧
      run2.toolCalls =
        (match lookupA "unknown" runs with
         | some r => r.toolCalls
         | none => []) ++ [e.toolName.getD "unknown"]) ∧
    lookupA "unknown" (agentEndRegistry now2 none runs) = none := by
  refine ⟨?_, ?_, ?_⟩
  · intro k hk
    exact lookupA_setA_ne "unknown" k _ runs hk
  · refine ⟨_, lookupA_setA_self "unknown" _ runs, ?_⟩
    cases hL : lookupA "unknown" runs with
    | some r => simp [trackTool, hL]
    | none => simp [trackTool, hL, emptyPluginRun]
  · apply lookupA_none_of_countKeyA_zero
    have h2 : countKeyA "unknown" (eraseA "unknown" runs) = 0 :=
      countKeyA_eraseA_self_zero _ _ h1
    have h3 := countKeyA_filter_le (β := PluginRun) "unknown"
      (fun kv => decide (now2 - kv.2.startedAt ≤ 3600000)) (eraseA "unknown" runs)
    show countKeyA "unknown"
      ((eraseA "unknown" runs).filter (fun kv => decide (now2 - kv.2.startedAt ≤ 3600000))) = 0
    omega

/-- A tool-call event for read_file with no error. -/
def demoEvent1 : ToolCallEventM := { toolName := some "read_file" }

/-- A tool-call event for shell_exec with no error. -/
def demoEvent2 : ToolCallEventM := { toolName := some "shell_exec" }

/-- Witness for C10: two tool events without a session key accumulate
into the single record keyed unknown, and a run-end event without a
session key then deletes it. -/
theorem c10_unknown_session_witness :
    (∃ run2, lookupA "unknown"
        (afterToolCall [] 1 "t2" none demoEvent2
          (afterToolCall [] 0 "t1" none demoEvent1 [])) = some run2 ∧
      run2.toolCalls = ["read_file", "shell_exec"]) ∧
    lookupA "unknown" (agentEndRegistry 2 none
        (afterToolCall [] 1 "t2" none demoEvent2
          (afterToolCall [] 0 "t1" none demoEvent1 []))) = none := by
  have houter := c10_unknown_session [] 1 2 "t2" demoEvent2
    (afterToolCall [] 0 "t1" none demoEvent1 []) (by decide)
  obtain ⟨run2, heq, htools⟩ := houter.2.1
  refine ⟨⟨run2, heq, ?_⟩, houter.2.2⟩
  rw [htools]
  decide

-- ───────────── Reporting dispatch boundary (plugin.ts, lines 286-336) ─────────────

/-- The outcome of the fetch transport: an HTTP response (with the
optional inserted count of the parsed body) or a failure of any kind —
network, authentication or serialization. -/
inductive TransportOutcome where
  | success (status : ℕ) (inserted : Option ℕ)
  | failure (err : String)

/-- The full trust score assembled by the agent_end handler. -/
structure TrustScore where
  overall : ℤ
  reliability : ℤ
  scopeAdherence : ℤ
  costEfficiency : ℤ
  latencyEfficiency : ℤ
  flags : List TrustFlag

/-- The reliability flag of the agent_end handler (plugin.ts, lines
202-210). -/
def reliabilityFlags (success : Bool) (errMsg : Option String) : List TrustFlag :=
  if success then []
  else
    [{ severity := .critical
       dimension := "reliability"
       message := "Run failed: " ++ errMsg.getD "unknown error"
       action := some "Check model provider status or reduce prompt complexity" }]

/-- The whole score computed by the agent_end handler (plugin.ts,
lines 194-261): reliability from the success flag, scope adherence and
latency efficiency from the run record, cost efficiency fixed at 100 (a
placeholder until llm_output provides token data, line 228-229), flags
in emission order. -/
def agentEndScore (allowedTools : List String) (latencyThreshold : ℚ) (run : PluginRun)
    (success : Bool) (errMsg : Option String) (durationMs : ℚ) : TrustScore :=
  { overall := overallScore (if success then 100 else 0)
      (scopeAdherenceScore allowedTools run.toolCalls run.scopeViolations) 100
      (latencyEfficiencyScore run.latencies latencyThreshold)
    reliability := if success then 100 else 0
    scopeAdherence := scopeAdherenceScore allowedTools run.toolCalls run.scopeViolations
    costEfficiency := 100
    latencyEfficiency := latencyEfficiencyScore run.latencies latencyThreshold
    flags := reliabilityFlags success errMsg ++
      scopeFlagsOf allowedTools run.toolCalls run.scopeViolations ++
      latencyFlagsOf run.latencies latencyThreshold durationMs }

/-- What the dispatch boundary logs: the then-branch logs the response
status (and the inserted count, or a question mark) only when verbose
and logLocally both hold; the catch-branch logs the failure under the
same condition, otherwise the failure is silently discarded. -/
def reportTransportLogs (verbose logLocally : Bool) : TransportOutcome → List String
  | .success status inserted =>
    if verbose && logLocally then
      ["[authe.me] API report: " ++ toString status ++ " — inserted " ++
        (match inserted with | some n => toString n | none => "?") ++ " actions"]
    else []
  | .failure err =>
    if verbose && logLocally then ["[authe.me] API report failed: " ++ err] else []

/-- The agent_end handler as seen by its caller: the score is computed
before dispatch, the transport outcome is consumed entirely inside the
fire-and-forget then/catch continuations (producing only log lines),
and the handler finishes normally — an Except.error would model an
exception escaping to the host. -/
def agentEndOutcome (verbose logLocally : Bool) (allowedTools : List String)
    (latencyThreshold : ℚ) (run : PluginRun) (success : Bool) (errMsg : Option String)
    (durationMs : ℚ) (transport : TransportOutcome) :
    Except String (TrustScore × List String) :=
  Except.ok (agentEndScore allowedTools latencyThreshold run success errMsg durationMs,
    reportTransportLogs verbose logLocally transport)

-- ───────────────────────── Claim C8 ─────────────────────────

/-- C8: a transport failure during reporting is caught at the dispatch
boundary: the agent_end handler always finishes normally (never an
error to the caller or host), the computed trust score — every
dimension score and every flag — is identical whatever the transport
outcome, and the failure is logged only when verbose diagnostics (and
local logging) are enabled, otherwise silently discarded. -/
theorem c8_transport_isolation (verbose logLocally : Bool) (allowedTools : List String)
    (latencyThreshold : ℚ) (run : PluginRun) (success : Bool) (errMsg : Option String)
    (durationMs : ℚ) (t1 t2 : TransportOutcome) :
    agentEndOutcome verbose logLocally allowedTools latencyThreshold run success errMsg
        durationMs t1 =
      Except.ok (agentEndScore allowedTools latencyThreshold run success errMsg durationMs,
        reportTransportLogs verbose logLocally t1) ∧
    (∀ s1 l1 s2 l2,
      agentEndOutcome verbose logLocally allowedTools latencyThreshold run success errMsg
          durationMs t1 = Except.ok (s1, l1) →
      agentEndOutcome verbose logLocally allowedTools latencyThreshold run success errMsg
          durationMs t2 = Except.ok (s2, l2) →
      s1 = s2) ∧
    (verbose = false → reportTransportLogs verbose logLocally t1 = []) ∧
    (logLocally = false → reportTransportLogs verbose logLocally t1 = []) := by
  refine ⟨rfl, ?_, ?_, ?_⟩
  · intro s1 l1 s2 l2 h1 h2
    have e1 : s1 = agentEndScore allowedTools latencyThreshold run success errMsg durationMs := by
      have := congrArg (fun x => match x with
        | Except.ok (s, _) => s
        | Except.error _ => s1) h1
      simpa [agentEndOutcome] using this.symm
    have e2 : s2 = agentEndScore allowedTools latencyThreshold run success errMsg durationMs := by
      have := congrArg (fun x => match x with
        | Except.ok (s, _) => s
        | Except.error _ => s2) h2
      simpa [agentEndOutcome] using this.symm
    rw [e1, e2]
  · intro hv
    cases t1 <;> simp [reportTransportLogs, hv]
  · intro hl
    cases t1 <;> simp [reportTransportLogs, hl]

/-- Witness for C8: with verbose off, a network failure leaves the
handler outcome Except.ok with the same score and no log line. -/
theorem c8_transport_isolation_witness :
    agentEndOutcome false true [] 30000 demoRun true none 100
        (TransportOutcome.failure "network down") =
      Except.ok (agentEndScore [] 30000 demoRun true none 100, []) ∧
    reportTransportLogs false true (TransportOutcome.failure "network down") = [] := by
  have h := c8_transport_isolation false true [] 30000 demoRun true none 100
    (TransportOutcome.failure "network down") (TransportOutcome.success 200 none)
  have hl : reportTransportLogs false true (TransportOutcome.failure "network down") = [] :=
    h.2.2.1 rfl
  refine ⟨?_, hl⟩
  rw [h.1, hl]
